import Mathlib

/-!
Shallow embedding of the EllaBella chatbot (src/ellabella.py).

Python strings are modelled as Lean `String`s; the Python string
operations used by the program (`lower`, `strip`, `replace`, `split`,
`in`, slicing) are given explicit executable definitions over `List Char`.
Python's dynamically-typed knowledge values (text or list of strings) are
modelled by the inductive `KVal`; Python `None` is `Option.none`.
Exceptions are modelled with `Except`: the only statement of the embedded
turn pipeline that can raise is `_format_response` applied to a list
value.  Wall-clock timestamps (`datetime.now()`) are modelled as `Nat`
parameters supplied by the caller, and the HTTP call of
`_get_api_response` is modelled by an explicit outcome value `ApiResult`.
-/

set_option maxRecDepth 100000

namespace EllaBella

/-- The single-quote character (U+0027), used to build the Python string
literals that contain an apostrophe. -/
def apoC : Char := Char.ofNat 39

/-- One-character string holding the apostrophe. -/
def apoS : String := String.mk [apoC]

/-- `pfx pat xs` : `pat` is a prefix of `xs` (char-list version of the
prefix test that underlies Python's substring scan). -/
def pfx : List Char → List Char → Bool
  | [], _ => true
  | _ :: _, [] => false
  | a :: as, b :: bs => a == b && pfx as bs

/-- `containsL pat xs` models Python's `pat in xs` on strings: `pat`
occurs contiguously somewhere in `xs`. -/
def containsL (pat : List Char) : List Char → Bool
  | [] => pat.isEmpty
  | c :: rest => pfx pat (c :: rest) || containsL pat rest

/-- Python `needle in hay` for strings. -/
def strIn (needle hay : String) : Bool := containsL needle.data hay.data

/-- Python `str.lower()` (ASCII case folding, which covers every string
this program manipulates). -/
def pyLower (s : String) : String := String.mk (s.data.map Char.toLower)

/-- Whitespace recognised by Python's `str.strip()` (the ASCII range). -/
def pyWS (c : Char) : Bool :=
  c == ' ' || c == '\t' || c == '\n' || c == '\r' || c == Char.ofNat 11 || c == Char.ofNat 12

/-- Strip `pyWS` characters from both ends of a char list. -/
def stripL (xs : List Char) : List Char :=
  (((xs.dropWhile pyWS).reverse).dropWhile pyWS).reverse

/-- Python `str.strip()`. -/
def pyStrip (s : String) : String := String.mk (stripL s.data)

/-- Fuelled scan behind `replaceAll`: replace every non-overlapping
occurrence of `pat` left to right.  Each step consumes at least one
character and exactly one unit of fuel, so fuel equal to the initial
length never runs out; the fuel only makes the recursion structural. -/
def replaceAllF (pat rep : List Char) : Nat → List Char → List Char
  | _, [] => []
  | 0, xs => xs
  | fuel + 1, c :: rest =>
    if pat ≠ [] ∧ pfx pat (c :: rest) then
      rep ++ replaceAllF pat rep fuel ((c :: rest).drop pat.length)
    else
      c :: replaceAllF pat rep fuel rest

/-- Python `str.replace(pat, rep)`: replace every non-overlapping
occurrence of `pat`, scanning left to right.  (The program only ever
calls it with non-empty `pat`.) -/
def replaceAll (pat rep xs : List Char) : List Char :=
  replaceAllF pat rep xs.length xs

/-- Python `str.replace` on `String`. -/
def pyReplace (s pat rep : String) : String :=
  String.mk (replaceAll pat.data rep.data s.data)

/-- Fuelled scan behind `splitOnL`; fuel as in `replaceAllF`. -/
def splitOnF (sep : List Char) : Nat → List Char → List (List Char)
  | _, [] => [[]]
  | 0, xs => [xs]
  | fuel + 1, c :: rest =>
    if sep ≠ [] ∧ pfx sep (c :: rest) then
      [] :: splitOnF sep fuel ((c :: rest).drop sep.length)
    else
      match splitOnF sep fuel rest with
      | [] => [[c]]
      | h :: t => (c :: h) :: t

/-- Python `str.split(sep)` for non-empty `sep`, on char lists: split at
every non-overlapping occurrence of `sep`, scanning left to right.
`splitOnL sep xs` is never the empty list. -/
def splitOnL (sep xs : List Char) : List (List Char) :=
  splitOnF sep xs.length xs

/-- Python `str.split(sep)` on `String`. -/
def pySplit (s sep : String) : List String :=
  (splitOnL sep.data s.data).map String.mk

/-- Python `' '.join(l)`. -/
def joinSp : List String → String
  | [] => ""
  | [x] => x
  | x :: y :: rest => x ++ " " ++ joinSp (y :: rest)

/-- A value stored in (or produced by) the knowledge table: Python text
or a Python list of strings. -/
inductive KVal where
  | s : String → KVal
  | l : List String → KVal
deriving DecidableEq

/-- Python truthiness of a knowledge value (`if knowledge:`). -/
def truthy : KVal → Bool
  | .s t => t ≠ ""
  | .l xs => xs ≠ []

/-- The `"usa"` entry of `KnowledgeBase.__init__` (exact text, including
the indentation of the Python triple-quoted literal). -/
def usaText : String :=
  "\n                The United States of America (USA) is a federal republic consisting of 50 states, \n                a federal district, and various territories. It is the world" ++ apoS ++ "s third-largest country \n                by total area and population. The capital is Washington, D.C., and the largest city \n                is New York City. The USA is known for its diverse geography, multicultural population, \n                strong economy, and significant global influence in politics, culture, and technology.\n                "

/-- The `"greeting"` entry of `KnowledgeBase.__init__` — a list, not text. -/
def greetingList : List String :=
  ["Hello! How can I help you today?",
   "Hi there! What would you like to know about?",
   "Greetings! I" ++ apoS ++ "m here to assist you."]

/-- The `"about_me"` entry of `KnowledgeBase.__init__` (exact text). -/
def aboutMeText : String :=
  "\n                I" ++ apoS ++ "m EllaBella, an AI assistant designed to help answer questions and provide information \n                on various topics. I aim to be helpful while being clear about my capabilities and limitations.\n                "

/-- `KnowledgeBase.knowledge` as an association list in Python dict
insertion order. -/
def knowledge : List (String × KVal) :=
  [("usa", .s usaText),
   ("greeting", .l greetingList),
   ("about_me", .s aboutMeText)]

/-- `KnowledgeBase.get_knowledge`: normalise the topic, try an exact key
match, then scan the keys in insertion order for a two-way substring
match. -/
def get_knowledge (topic : String) : Option KVal :=
  let topic_key := pyStrip (pyLower topic)
  match knowledge.find? (fun p => p.1 == topic_key) with
  | some p => some p.2
  | none =>
    match knowledge.find? (fun p => strIn p.1 topic_key || strIn topic_key p.1) with
    | some p => some p.2
    | none => none

/-- `EllaBella._identify_intent`'s intent table, in Python dict insertion
order. -/
def intents : List (String × List String) :=
  [("greeting", ["hello", "hi", "hey", "greetings", "good morning", "good afternoon"]),
   ("about_bot", ["who are you", "what are you", "tell me about yourself"]),
   ("farewell", ["goodbye", "bye", "see you", "quit", "exit"]),
   ("about_topic", ["tell me about", "what is", "who is", "explain"]),
   ("personal_info", ["i am", "i" ++ apoS ++ "m", "my name", "about me"]),
   ("affirmation", ["yes", "yeah", "sure", "okay", "ok"]),
   ("negation", ["no", "nope", "not"]),
   ("gratitude", ["thank", "thanks", "appreciate"])]

/-- `EllaBella._identify_intent`: lowercase the input, scan the intent
table in order, return the first intent one of whose keywords occurs in
the input (confidence 0.8), else `general_query` (confidence 0.5). -/
def identify_intent (user_input : String) : String × ℚ :=
  let input_lower := pyLower user_input
  match intents.findSome?
      (fun p => if p.2.any (fun pat => strIn pat input_lower) then some p.1 else none) with
  | some intent => (intent, (0.8 : ℚ))
  | none => ("general_query", (0.5 : ℚ))

/-- Fixed reply of the `greeting` dispatch branch. -/
def greetingReply : String := "Hello! How can I help you today?"

/-- Fixed reply of the `farewell` dispatch branch. -/
def farewellReply : String := "Goodbye! Have a great day!"

/-- Fixed reply of the `gratitude` dispatch branch. -/
def gratitudeReply : String :=
  "You" ++ apoS ++ "re welcome! Is there anything else you" ++ apoS ++ "d like to know?"

/-- Fixed apology of the turn-level exception handler in
`generate_response`. -/
def turnApology : String :=
  "I apologize, but I encountered an error while processing your request."

/-- Fixed reply of `_format_response` for empty/absent input. -/
def emptyApology : String :=
  "I apologize, but I" ++ apoS ++ "m having trouble generating a response right now."

/-- Fixed clarification request of `_get_api_response` for a non-200
status or a body that is not a non-empty list. -/
def clarifyMsg : String :=
  "I apologize, but I need more context to provide a helpful response. Could you please elaborate?"

/-- Fixed reply of `_get_api_response` when the request raises. -/
def unavailableMsg : String :=
  "I apologize, but I" ++ apoS ++ "m having trouble accessing my knowledge base right now."

/-- The JSON body of an HTTP reply, as far as `_get_api_response`
inspects it: either not a JSON array, or an array whose elements carry an
optional `generated_text` field. -/
inductive ApiBody where
  | notList : ApiBody
  | l : List (Option String) → ApiBody
deriving DecidableEq

/-- Outcome of the `requests.post` call in `_get_api_response`: an
exception carrying its message, or an HTTP response with a status code
and a parsed body. -/
inductive ApiResult where
  | exn : String → ApiResult
  | response : Nat → ApiBody → ApiResult
deriving DecidableEq

/-- `EllaBella._get_api_response`, returning the reply text together with
the log lines it writes. -/
def get_api_response : ApiResult → String × List String
  | .exn e => (unavailableMsg, ["API error: " ++ e])
  | .response status body =>
    if status == 200 then
      match body with
      | .l (item :: _) => (item.getD "", [])
      | _ => (clarifyMsg, [])
    else (clarifyMsg, [])

/-- The string-processing core of `EllaBella._format_response` (the code
that runs once `text` is a non-empty string): remove the role labels,
strip, split on line breaks, strip each line, drop blank lines, rejoin
with single spaces, and truncate to 497 chars plus `"..."` when longer
than 500. -/
def formatText (text : String) : String :=
  let t := pyStrip (pyReplace (pyReplace text "EllaBella:" "") "Assistant:" "")
  let lines := pySplit t "\n"
  let cleaned := joinSp ((lines.map pyStrip).filter (fun l => l ≠ ""))
  if cleaned.length > 500 then String.mk (cleaned.data.take 497) ++ "..." else cleaned

/-- `EllaBella._format_response` on the values that can reach it: Python
`None`, a string, or a list.  `None`, `""` and `[]` are falsy and give
the fixed apology; a non-empty list has no `.replace` attribute, so the
call raises `AttributeError`. -/
def format_response : Option KVal → Except String String
  | none => .ok emptyApology
  | some (.s t) => if t = "" then .ok emptyApology else .ok (formatText t)
  | some (.l []) => .ok emptyApology
  | some (.l (_ :: _)) =>
    .error "AttributeError: list object has no attribute replace"

/-- A `Message` record (`@dataclass Message`), with the wall-clock
timestamp modelled as a `Nat` supplied by the caller. -/
structure Message where
  content : String
  timestamp : Nat
  sender : String
deriving DecidableEq

/-- `EllaBella.add_message`: append to `conversation_history` and return
the log line it writes (content truncated to its first 50 chars). -/
def add_message (hist : List Message) (content sender : String) (now : Nat) :
    List Message × String :=
  (hist ++ [⟨content, now, sender⟩],
   "New message from " ++ sender ++ ": " ++ String.mk (content.data.take 50) ++ "...")

/-- The topic extraction of the `"tell me about"` branch of
`generate_response`: text after the last occurrence of the phrase in the
lowercased input, stripped. -/
def extract_topic (user_input : String) : String :=
  pyStrip ((pySplit (pyLower user_input) "tell me about").getLastD "")

/-- The dispatch decision tree inside `generate_response`'s `try` block:
the candidate response value handed to `_format_response`, together with
the log lines the API call wrote (if it ran). -/
def dispatch (user_input : String) (api : ApiResult) : Option KVal × List String :=
  let intent := (identify_intent user_input).1
  if intent = "greeting" then (some (.s greetingReply), [])
  else if intent = "about_bot" then (get_knowledge "about_me", [])
  else if intent = "farewell" then (some (.s farewellReply), [])
  else if intent = "gratitude" then (some (.s gratitudeReply), [])
  else if strIn "tell me about" (pyLower user_input) then
    match get_knowledge (extract_topic user_input) with
    | some k =>
      if truthy k then (some k, [])
      else (some (.s (get_api_response api).1), (get_api_response api).2)
    | none => (some (.s (get_api_response api).1), (get_api_response api).2)
  else (some (.s (get_api_response api).1), (get_api_response api).2)

/-- `EllaBella.generate_response`: log the user message, classify and
dispatch, format (catching any exception into the fixed apology), log
the bot message.  Returns the reply, the new history, and the log lines
written during the turn, in order. -/
def generate_response (hist : List Message) (user_input : String) (api : ApiResult)
    (t1 t2 : Nat) : String × List Message × List String :=
  let am1 := add_message hist user_input "user" t1
  let d := dispatch user_input api
  let response :=
    match format_response d.1 with
    | .ok s => s
    | .error _ => turnApology
  let errLog : List String :=
    match format_response d.1 with
    | .ok _ => []
    | .error e => ["Error generating response: " ++ e]
  let am2 := add_message am1.1 response "EllaBella" t2
  (response, am2.1, am1.2 :: (d.2 ++ errLog ++ [am2.2]))

/-- `EllaBella.get_conversation_summary`: the last 10 history entries (or
all of them when fewer), oldest first, as (content, timestamp, sender)
records. -/
def get_conversation_summary (hist : List Message) : List (String × Nat × String) :=
  (hist.drop (hist.length - 10)).map (fun m => (m.content, m.timestamp, m.sender))

/-!
Specification-side definitions (written from the spec's words, to be
compared with the source embedding above).
-/

/-- Spec §4.2: the fixed ordered table of (intent, keyword phrases), in
the claimed definition order greeting, about_bot, farewell, about_topic,
personal_info, affirmation, negation, gratitude. -/
def specIntentTable : List (String × List String) :=
  [("greeting", ["hello", "hi", "hey", "greetings", "good morning", "good afternoon"]),
   ("about_bot", ["who are you", "what are you", "tell me about yourself"]),
   ("farewell", ["goodbye", "bye", "see you", "quit", "exit"]),
   ("about_topic", ["tell me about", "what is", "who is", "explain"]),
   ("personal_info", ["i am", "i" ++ apoS ++ "m", "my name", "about me"]),
   ("affirmation", ["yes", "yeah", "sure", "okay", "ok"]),
   ("negation", ["no", "nope", "not"]),
   ("gratitude", ["thank", "thanks", "appreciate"])]

/-- Spec §4.2, as words: lowercase the input; the FIRST table entry, in
definition order, one of whose keywords occurs as a substring of the
lowercased input, wins with confidence 0.8; with no match the result is
`general_query` with confidence 0.5. -/
def identify_intent_spec (text : String) : String × ℚ :=
  match specIntentTable.find? (fun p => p.2.any (fun kw => strIn kw (pyLower text))) with
  | some p => (p.1, (0.8 : ℚ))
  | none => ("general_query", (0.5 : ℚ))

/-- Spec §4.1, as words: normalise the topic (lowercase, trim); an
exact-key match wins; otherwise the first table entry, in definition
order, whose key is a substring of the topic or vice versa wins; absent
when no key qualifies by either rule. -/
def get_knowledge_spec (topic : String) : Option KVal :=
  let t := pyStrip (pyLower topic)
  match List.lookup t knowledge with
  | some v => some v
  | none => ((knowledge.filter (fun p => strIn p.1 t || strIn t p.1)).head?).map Prod.snd

/-!
Helper lemmas.
-/

/-- `findSome?` with a guarded function is `find?` followed by `map`. -/
theorem findSome?_if {α β : Type} (p : α → Bool) (f : α → β) (l : List α) :
    l.findSome? (fun a => if p a then some (f a) else none) = (l.find? p).map f := by
  induction l with
  | nil => rfl
  | cons a l ih => cases h : p a <;> simp [List.findSome?_cons, List.find?_cons, h, ih]

/-- `List.lookup` is `find?` on the first component followed by `map`
onto the second. -/
theorem lookup_eq_find? {β : Type} (k : String) (l : List (String × β)) :
    List.lookup k l = (l.find? (fun p => p.1 == k)).map Prod.snd := by
  induction l with
  | nil => rfl
  | cons q l ih =>
    obtain ⟨qk, qv⟩ := q
    by_cases h : qk = k
    · subst h; simp [List.lookup, List.find?_cons]
    · have h1 : (k == qk) = false := by simp [Ne.symm h]
      have h2 : (qk == k) = false := by simp [h]
      simp [List.lookup, List.find?_cons, h1, h2, ih]

/-- The head of a filtered list is the first element satisfying the
predicate. -/
theorem head?_filter_eq_find? {α : Type} (p : α → Bool) (l : List α) :
    (l.filter p).head? = l.find? p := by
  induction l with
  | nil => rfl
  | cons a l ih => cases h : p a <;> simp [List.filter_cons, List.find?_cons, h, ih]

/-- `replaceAllF` is the identity when the pattern does not occur,
whatever the fuel. -/
theorem replaceAllF_not_contains (pat rep : List Char) :
    ∀ (fuel : Nat) (xs : List Char), containsL pat xs = false →
      replaceAllF pat rep fuel xs = xs := by
  intro fuel
  induction fuel with
  | zero => intro xs _; cases xs <;> rfl
  | succ n ih =>
    intro xs h
    cases xs with
    | nil => rfl
    | cons c rest =>
      have hor : pfx pat (c :: rest) = false ∧ containsL pat rest = false := by
        simpa [containsL] using h
      rw [replaceAllF, if_neg, ih rest hor.2]
      intro hcontra
      rw [hor.1] at hcontra
      exact Bool.false_ne_true hcontra.2

/-- `replaceAll` is the identity when the pattern does not occur. -/
theorem replaceAll_not_contains (pat rep : List Char) :
    ∀ xs : List Char, containsL pat xs = false → replaceAll pat rep xs = xs :=
  fun xs h => replaceAllF_not_contains pat rep xs.length xs h

/-- `splitOnF` on a single character that does not occur returns the
whole list as the only chunk, whatever the fuel. -/
theorem splitOnF_single_not_mem {a : Char} :
    ∀ (fuel : Nat) (xs : List Char), a ∉ xs → splitOnF [a] fuel xs = [xs] := by
  intro fuel
  induction fuel with
  | zero => intro xs _; cases xs <;> rfl
  | succ n ih =>
    intro xs h
    cases xs with
    | nil => rfl
    | cons c rest =>
      have hne : a ≠ c := fun he => h (he ▸ List.mem_cons_self c rest)
      have hr : a ∉ rest := fun hm => h (List.mem_cons_of_mem c hm)
      rw [splitOnF, if_neg, ih rest hr]
      intro hcontra
      have hpfx : pfx [a] (c :: rest) = true := hcontra.2
      have : (a == c) = true := by simpa [pfx] using hpfx
      exact hne (by simpa using this)

/-- Splitting on a single character that does not occur returns the
whole list as the only chunk. -/
theorem splitOnL_single_not_mem {a : Char} (xs : List Char) (h : a ∉ xs) :
    splitOnL [a] xs = [xs] :=
  splitOnF_single_not_mem xs.length xs h

/-- `String.mk` of a string's underlying characters is the string. -/
theorem mk_data (s : String) : String.mk s.data = s := rfl

/-- Every value stored in the knowledge table is truthy. -/
theorem knowledge_truthy : ∀ p ∈ knowledge, truthy p.2 = true := by decide

/-- Any value returned by `get_knowledge` is truthy (every table value
is a non-empty string or non-empty list). -/
theorem truthy_of_get_knowledge {topic : String} {k : KVal}
    (h : get_knowledge topic = some k) : truthy k = true := by
  simp only [get_knowledge] at h
  cases h1 : knowledge.find? (fun p => p.1 == pyStrip (pyLower topic)) with
  | some p =>
    rw [h1] at h
    cases h
    exact knowledge_truthy p (List.mem_of_find?_eq_some h1)
  | none =>
    rw [h1] at h
    cases h2 : knowledge.find?
        (fun p => strIn p.1 (pyStrip (pyLower topic)) || strIn (pyStrip (pyLower topic)) p.1) with
    | some p =>
      rw [h2] at h
      cases h
      exact knowledge_truthy p (List.mem_of_find?_eq_some h2)
    | none => rw [h2] at h; cases h

/-!
Claim theorems.
-/

/-- C1: for every input string, `identify_intent` lowercases the input
and returns the first intent, in the fixed definition order of the
keyword table (greeting, about_bot, farewell, about_topic,
personal_info, affirmation, negation, gratitude), one of whose keyword
phrases occurs as a substring of the lowercased input, with confidence
0.8; with no match it returns `general_query` with confidence 0.5 — so
the earlier table entry wins on overlaps and the confidence is always
one of exactly these two constants. -/
theorem C1_identify_intent_refines (input : String) :
    identify_intent input = identify_intent_spec input ∧
    ((identify_intent input).2 = (0.8 : ℚ) ∨ (identify_intent input).2 = (0.5 : ℚ)) := by
  have hmain : identify_intent input = identify_intent_spec input := by
    simp only [identify_intent, identify_intent_spec]
    rw [findSome?_if (fun p => p.2.any (fun pat => strIn pat (pyLower input))) Prod.fst intents]
    have htab : intents = specIntentTable := rfl
    rw [htab]
    cases specIntentTable.find? (fun p => p.2.any (fun pat => strIn pat (pyLower input))) with
    | some p => rfl
    | none => rfl
  refine ⟨hmain, ?_⟩
  rw [hmain]
  simp only [identify_intent_spec]
  cases specIntentTable.find? (fun p => p.2.any (fun kw => strIn kw (pyLower input))) with
  | some p => left; rfl
  | none => right; rfl

/-- C2: `get_knowledge` normalises the topic (lowercase, trim), returns
the value of an exactly matching key first, otherwise the value of the
first key in table definition order related to the normalised topic by
the two-way substring rule, and absent when no key qualifies; in
particular `get_knowledge "xyz-not-present"` is absent. -/
theorem C2_get_knowledge_refines :
    (∀ topic : String, get_knowledge topic = get_knowledge_spec topic) ∧
    get_knowledge "xyz-not-present" = none := by
  constructor
  · intro topic
    simp only [get_knowledge, get_knowledge_spec]
    rw [lookup_eq_find? (pyStrip (pyLower topic)) knowledge]
    rw [← head?_filter_eq_find?
      (fun p => strIn p.1 (pyStrip (pyLower topic)) || strIn (pyStrip (pyLower topic)) p.1)
      knowledge] at *
    cases knowledge.find? (fun p => p.1 == pyStrip (pyLower topic)) with
    | some p => rfl
    | none =>
      cases (knowledge.filter
          (fun p => strIn p.1 (pyStrip (pyLower topic)) || strIn (pyStrip (pyLower topic)) p.1)).head? with
      | some p => rfl
      | none => rfl
  · decide

/-- C3 counterexample: the claim says `get_knowledge "about me"` returns
the `about_me` text, but the space-separated form matches the key
`"about_me"` neither exactly nor by the substring rule, so the lookup is
absent. -/
theorem C3_counterexample :
    get_knowledge "about me" = none ∧
    get_knowledge "about me" ≠ some (KVal.s aboutMeText) := by
  constructor
  · decide
  · decide

/-- C5: `_format_response` maps empty/absent input to the fixed apology;
otherwise it removes the role labels `"EllaBella:"`/`"Assistant:"`,
splits on line breaks, strips each line, drops blank lines, rejoins with
single spaces, and truncates anything longer than 500 characters to 497
plus the `"..."` marker; in particular a 600-character clean single-line
input yields exactly 500 characters (the first 497 of the source plus
the marker), and `"Line1\n  \nLine2"` yields `"Line1 Line2"`. -/
theorem C5_format_response_behaviour :
    (format_response (some (.s "")) = .ok emptyApology ∧
      format_response none = .ok emptyApology) ∧
    format_response (some (.s "Line1\n  \nLine2")) = .ok "Line1 Line2" ∧
    (∀ t : String,
      Char.ofNat 10 ∉ t.data →
      containsL "EllaBella:".data t.data = false →
      containsL "Assistant:".data t.data = false →
      pyStrip t = t →
      t.length = 600 →
      format_response (some (.s t)) = .ok (String.mk (t.data.take 497) ++ "...") ∧
      (String.mk (t.data.take 497) ++ "...").length = 500) := by
  refine ⟨⟨rfl, rfl⟩, rfl, ?_⟩
  intro t h1 h2 h3 h4 h5
  have hlen : t.data.length = 600 := h5
  have ht : t ≠ "" := by
    intro he
    rw [he] at hlen
    simp at hlen
  have hr1 : pyReplace t "EllaBella:" "" = t := by
    unfold pyReplace
    rw [replaceAll_not_contains _ _ _ h2, mk_data]
  have hr2 : pyReplace t "Assistant:" "" = t := by
    unfold pyReplace
    rw [replaceAll_not_contains _ _ _ h3, mk_data]
  have hsplit : pySplit t "\n" = [t] := by
    unfold pySplit
    have hsep : ("\n" : String).data = [Char.ofNat 10] := by decide
    rw [hsep, splitOnL_single_not_mem t.data h1]
    simp [mk_data]
  have htb : (decide (t ≠ "")) = true := by simp [ht]
  have key : formatText t = String.mk (t.data.take 497) ++ "..." := by
    simp only [formatText, hr1, hr2, h4, hsplit, List.map_cons, List.map_nil,
      List.filter_cons, List.filter_nil, htb, if_true]
    have hjoin : joinSp [t] = t := rfl
    rw [hjoin]
    have hcond : t.length > 500 := by rw [h5]; omega
    rw [if_pos hcond]
  refine ⟨?_, ?_⟩
  · simp only [format_response, if_neg ht, key]
  · have h6 : (String.mk (t.data.take 497) ++ "...").length
        = (t.data.take 497 ++ ("..." : String).data).length := rfl
    rw [h6, List.length_append, List.length_take, hlen]
    decide

/-- A 600-character single-line string of `a`s, the concrete input for
the C5 truncation property. -/
def aaa600 : String := String.mk (List.replicate 600 (Char.ofNat 97))

/-- C5 witness: the truncation property of `C5_format_response_behaviour`
holds at the concrete 600-character input `aaa600`. -/
theorem C5_format_response_behaviour_witness :
    format_response (some (.s aaa600)) = .ok (String.mk (aaa600.data.take 497) ++ "...") ∧
    (String.mk (aaa600.data.take 497) ++ "...").length = 500 :=
  C5_format_response_behaviour.2.2 aaa600 (by decide) (by decide) (by decide)
    (by decide) (by decide)

/-- C3 (amended): `get_knowledge "ABOUT_ME"` returns the exact text
stored under the `about_me` key (lowercasing turns it into an exact key
match), while `get_knowledge "about me"` is absent: the lookup is
case-insensitive but the space in `"about me"` does not match the
underscore of the key. -/
theorem C3_amended :
    get_knowledge "ABOUT_ME" = some (KVal.s aboutMeText) ∧
    get_knowledge "about me" = none := by
  constructor
  · decide
  · decide

/-- C4: when the classified intent is none of greeting, about_bot,
farewell, gratitude, the orchestrator checks the literal substring
`"tell me about"` in the lowercased raw input: if present it extracts
the trimmed text after its last occurrence, looks it up in the knowledge
base, and hands the knowledge value on when found, otherwise the
remote completion of the raw input; if absent it hands the remote
completion on. -/
theorem C4_tell_me_about_dispatch (input : String) (api : ApiResult)
    (hg : (identify_intent input).1 ≠ "greeting")
    (hb : (identify_intent input).1 ≠ "about_bot")
    (hf : (identify_intent input).1 ≠ "farewell")
    (hr : (identify_intent input).1 ≠ "gratitude") :
    (strIn "tell me about" (pyLower input) = true →
      (∀ k : KVal, get_knowledge (extract_topic input) = some k →
        dispatch input api = (some k, [])) ∧
      (get_knowledge (extract_topic input) = none →
        dispatch input api =
          (some (.s (get_api_response api).1), (get_api_response api).2))) ∧
    (strIn "tell me about" (pyLower input) = false →
      dispatch input api =
        (some (.s (get_api_response api).1), (get_api_response api).2)) := by
  simp only [dispatch, if_neg hg, if_neg hb, if_neg hf, if_neg hr]
  constructor
  · intro hs
    rw [if_pos hs]
    constructor
    · intro k hk
      rw [hk]
      simp [truthy_of_get_knowledge hk]
    · intro hk
      rw [hk]
  · intro hs
    rw [if_neg (by simp [hs])]

/-- C4 witness: at input `"tell me about usa"` (classified intent
`about_topic`) with a failing API outcome, the dispatch hands on the
`usa` knowledge text found for the extracted topic `"usa"`. -/
theorem C4_tell_me_about_dispatch_witness :
    dispatch "tell me about usa" (.response 404 .notList) = (some (.s usaText), []) :=
  ((C4_tell_me_about_dispatch "tell me about usa" (.response 404 .notList)
      (by decide) (by decide) (by decide) (by decide)).1 (by decide)).1
    (KVal.s usaText) (by decide)

/-- C6: the remote-completion call never raises: on status 200 with a
non-empty list body whose first element carries a `generated_text` field
it returns that field (possibly empty); on any other status, or a 200
body that is not a non-empty list, it returns the fixed clarification
string; on an exception it logs the error and returns the fixed
knowledge-base-unavailable string. -/
theorem C6_api_response_total :
    (∀ (t : String) (rest : List (Option String)),
      (get_api_response (.response 200 (.l (some t :: rest)))).1 = t) ∧
    (∀ (status : Nat) (body : ApiBody), status ≠ 200 →
      (get_api_response (.response status body)).1 = clarifyMsg) ∧
    ((get_api_response (.response 200 .notList)).1 = clarifyMsg ∧
      (get_api_response (.response 200 (.l []))).1 = clarifyMsg) ∧
    (∀ e : String, get_api_response (.exn e) = (unavailableMsg, ["API error: " ++ e])) := by
  refine ⟨fun t rest => rfl, ?_, ⟨rfl, rfl⟩, fun e => rfl⟩
  intro status body h
  simp only [get_api_response]
  rw [if_neg (by simp [h])]

/-- C6 witness: the non-200 clause of `C6_api_response_total` at the
concrete outcome status 404 with a non-list body. -/
theorem C6_api_response_total_witness :
    (get_api_response (.response 404 .notList)).1 = clarifyMsg :=
  C6_api_response_total.2.1 404 .notList (by decide)

/-- C7: whenever the formatting step of a turn raises, the turn handler
catches it, returns the fixed apology (independent of the exception
detail), logs the error, and still appends both the user input and the
apology to the conversation log. -/
theorem C7_turn_exception_contained
    (hist : List Message) (input : String) (api : ApiResult) (t1 t2 : Nat) (e : String)
    (h : format_response (dispatch input api).1 = .error e) :
    (generate_response hist input api t1 t2).1 = turnApology ∧
    (generate_response hist input api t1 t2).2.1 =
      hist ++ [⟨input, t1, "user"⟩, ⟨turnApology, t2, "EllaBella"⟩] ∧
    ("Error generating response: " ++ e) ∈ (generate_response hist input api t1 t2).2.2 := by
  refine ⟨?_, ?_, ?_⟩
  · simp [generate_response, h]
  · simp [generate_response, add_message, h]
  · simp [generate_response, h]

/-- C7 witness: the turn `"tell me about greeting"` formats a list value,
which raises; the turn returns the fixed apology, appends both entries,
and logs the error. -/
theorem C7_turn_exception_contained_witness :
    (generate_response [] "tell me about greeting" (.response 404 .notList) 0 1).1
        = turnApology ∧
    (generate_response [] "tell me about greeting" (.response 404 .notList) 0 1).2.1 =
      [⟨"tell me about greeting", 0, "user"⟩, ⟨turnApology, 1, "EllaBella"⟩] ∧
    ("Error generating response: " ++
        "AttributeError: list object has no attribute replace") ∈
      (generate_response [] "tell me about greeting" (.response 404 .notList) 0 1).2.2 :=
  C7_turn_exception_contained [] "tell me about greeting" (.response 404 .notList) 0 1
    "AttributeError: list object has no attribute replace" rfl

/-- C8: the conversation log is append-only — `add_message` and a whole
turn only ever append — and `get_conversation_summary` returns at most
10 entries: the most recent `min length 10` ones, as a suffix of the
log in original chronological order. -/
theorem C8_log_append_only_summary_bounded :
    (∀ (hist : List Message) (c s : String) (t : Nat),
      (add_message hist c s t).1 = hist ++ [⟨c, t, s⟩]) ∧
    (∀ (hist : List Message) (input : String) (api : ApiResult) (t1 t2 : Nat),
      ∃ r : String, (generate_response hist input api t1 t2).2.1 =
        hist ++ [⟨input, t1, "user"⟩, ⟨r, t2, "EllaBella"⟩]) ∧
    (∀ hist : List Message,
      (get_conversation_summary hist).length ≤ 10 ∧
      ∃ pre sfx : List Message, hist = pre ++ sfx ∧ sfx.length = min hist.length 10 ∧
        get_conversation_summary hist =
          sfx.map (fun m => (m.content, m.timestamp, m.sender))) := by
  refine ⟨fun hist c s t => rfl, ?_, ?_⟩
  · intro hist input api t1 t2
    refine ⟨(generate_response hist input api t1 t2).1, ?_⟩
    simp [generate_response, add_message]
  · intro hist
    constructor
    · simp only [get_conversation_summary, List.length_map, List.length_drop]
      omega
    · refine ⟨hist.take (hist.length - 10), hist.drop (hist.length - 10),
        (List.take_append_drop _ _).symm, ?_, rfl⟩
      simp only [List.length_drop]
      omega

/-- C9: the turn `"hi"` returns the fixed greeting string, and every
turn appends exactly two entries to the conversation log — first the
user input with sender `"user"`, then the final response with sender
`"EllaBella"`, each carrying the turn's clock value. -/
theorem C9_hi_turn_and_two_appends :
    (∀ (hist : List Message) (api : ApiResult) (t1 t2 : Nat),
      (generate_response hist "hi" api t1 t2).1 = greetingReply ∧
      (generate_response hist "hi" api t1 t2).2.1 =
        hist ++ [⟨"hi", t1, "user"⟩, ⟨greetingReply, t2, "EllaBella"⟩]) ∧
    (∀ (hist : List Message) (input : String) (api : ApiResult) (t1 t2 : Nat),
      (generate_response hist input api t1 t2).2.1 =
        hist ++ [⟨input, t1, "user"⟩,
          ⟨(generate_response hist input api t1 t2).1, t2, "EllaBella"⟩]) := by
  constructor
  · intro hist api t1 t2
    constructor
    · rfl
    · simp [generate_response, add_message]
      rfl
  · intro hist input api t1 t2
    simp [generate_response, add_message]

/-- C10: the `"greeting"` knowledge key maps to a list of strings, not
text: any topic normalising to exactly `"greeting"` makes
`get_knowledge` return that non-text value, the formatter raises on it,
and the turn `"tell me about greeting"` therefore ends in the fixed
turn-level apology. -/
theorem C10_greeting_list_breaks_formatter :
    get_knowledge "greeting" = some (.l greetingList) ∧
    (∀ topic : String, pyStrip (pyLower topic) = "greeting" →
      get_knowledge topic = some (.l greetingList)) ∧
    (∃ e : String, format_response (some (.l greetingList)) = .error e) ∧
    (∀ (hist : List Message) (api : ApiResult) (t1 t2 : Nat),
      (generate_response hist "tell me about greeting" api t1 t2).1 = turnApology) := by
  refine ⟨by decide, ?_, ⟨_, rfl⟩, ?_⟩
  · intro topic h
    simp only [get_knowledge, h]
    decide
  · intro hist api t1 t2
    rfl

/-- C10 witness: `" GREETING "` normalises to `"greeting"` and its lookup
returns the list value. -/
theorem C10_greeting_list_breaks_formatter_witness :
    pyStrip (pyLower " GREETING ") = "greeting" ∧
    get_knowledge " GREETING " = some (.l greetingList) :=
  ⟨by decide, C10_greeting_list_breaks_formatter.2.1 " GREETING " (by decide)⟩

end EllaBella
